import Mathlib

/-!
Shallow embedding of the dashboard backend (`dh.py`): the rolling-statistics
aggregator (`DashboardData`), the broadcast fan-out hub (`ConnectionManager`)
and the ingestion poller (`poll_detection_api`), together with theorems
settling the specification claims.

Modelling conventions:
* time is a `Nat` counted in minutes (`datetime.now()` becomes an explicit
  `now` parameter; ISO-timestamp string comparison is order-preserving, so a
  `Nat` with `<` is faithful);
* a JSON anomaly record is an `AnomalyRecord` of optional fields (a missing
  dict key is `none`); `record.get(k, default)` becomes `Option.getD`;
* Python dicts preserve insertion order, so `ip_stats`, `protocol_stats` and
  `hourly_stats` are association lists updated in place / appended at the end;
* `deque(maxlen=n)` is a list together with `dequeAppend n`, which appends and
  drops the oldest entry when the capacity is exceeded;
* Python's `sorted(..., key=lambda x: x[1], reverse=True)` is a stable
  descending sort by a `Nat` key, embedded as the stable insertion sort
  `sortByKeyDesc` (equal keys keep their original relative order, exactly as
  CPython guarantees for `reverse=True`);
* `list.remove` either removes the first occurrence or raises `ValueError`,
  embedded as an `Except String` result.
-/

/-- One anomaly record as exchanged with the detection API: a JSON object
whose fields may all be absent.  `timestamp` is the ingestion-assigned field
written by `add_anomaly`; a freshly fetched candidate carries `none`. -/
structure AnomalyRecord where
  src_ip : Option String
  dst_ip : Option String
  protocol : Option String
  score : Option Int
  result : Option Int
  timestamp : Option Nat
deriving DecidableEq, Repr

/-- Embedding of the in-place mutation
`anomaly_data['timestamp'] = datetime.now().isoformat()` performed by
`add_anomaly` on the caller's record. -/
def stampRecord (now : Nat) (r : AnomalyRecord) : AnomalyRecord :=
  { r with timestamp := some now }

/-- Value stored per source IP in `ip_stats`
(`{"count": 0, "last_seen": None}` default). -/
structure IPStat where
  count : Nat
  last_seen : Option Nat
deriving DecidableEq, Repr

/-- One element of `traffic_stats` as built by `add_traffic_data`.  The counts
are integers: the source performs plain subtraction with no validation. -/
structure TrafficSample where
  timestamp : Nat
  total_requests : Int
  anomaly_count : Int
  normal_count : Int
deriving DecidableEq, Repr

/-- Append for a `deque(maxlen := n)`: `l.append(x)` drops the oldest entry when the
capacity would be exceeded. -/
def dequeAppend (n : Nat) (l : List α) (x : α) : List α :=
  let l' := l ++ [x]
  if n < l'.length then l'.drop (l'.length - n) else l'

/-- Python slicing `l[s:]` for an integer `s` (negative `s` counts from the
end, clamped at the start of the list). -/
def pySliceFrom (l : List α) (s : Int) : List α :=
  if s < 0 then l.drop (l.length - (-s).toNat) else l.drop s.toNat

/-- Stable insert of `x` into a list descending by `key`: `x` goes before the
first element whose key is not larger, so among equal keys earlier elements
stay first. -/
def insertByKeyDesc (key : α → Nat) (x : α) : List α → List α
  | [] => [x]
  | y :: ys => if key y ≤ key x then x :: y :: ys else y :: insertByKeyDesc key x ys

/-- Stable descending sort by `key`: the embedding of CPython's stable
`sorted(..., key=..., reverse=True)`. -/
def sortByKeyDesc (key : α → Nat) : List α → List α
  | [] => []
  | x :: xs => insertByKeyDesc key x (sortByKeyDesc key xs)

/-- Association-list update with a defaultdict default: update the value at
`k` in place if present (Python dicts keep the key's position), otherwise
append `(k, upd dflt)` at the end. -/
def assocBump (k : String) (dflt : β) (upd : β → β) : List (String × β) → List (String × β)
  | [] => [(k, upd dflt)]
  | (k', v) :: rest =>
      if k' = k then (k', upd v) :: rest else (k', v) :: assocBump k dflt upd rest

/-- Association-list lookup. -/
def assocFind (k : String) : List (String × β) → Option β
  | [] => none
  | (k', v) :: rest => if k' = k then some v else assocFind k rest

/-- Read of `ip_stats[ip]['count']` through the defaultdict (missing key = 0). -/
def ipCount (l : List (String × IPStat)) (ip : String) : Nat :=
  match assocFind ip l with
  | none => 0
  | some st => st.count

/-- Read of `ip_stats[ip]['last_seen']` through the defaultdict. -/
def ipLastSeen (l : List (String × IPStat)) (ip : String) : Option Nat :=
  match assocFind ip l with
  | none => none
  | some st => st.last_seen

/-- Read of `protocol_stats[p]` / `hourly_stats[h]` through defaultdict(int). -/
def natCount (l : List (String × Nat)) (k : String) : Nat :=
  match assocFind k l with
  | none => 0
  | some n => n

/-- Embedding of `datetime.now().strftime('%H:00')` with time in minutes: the hour-of-day
bucket, rendered as the hour number followed by ":00". -/
def hourBucket (now : Nat) : String :=
  toString ((now / 60) % 24) ++ ":00"

/-- The `DashboardData` state: two bounded deques plus three unbounded
counter maps. -/
structure DashboardData where
  anomaly_history : List AnomalyRecord
  traffic_stats : List TrafficSample
  ip_stats : List (String × IPStat)
  protocol_stats : List (String × Nat)
  hourly_stats : List (String × Nat)
deriving DecidableEq, Repr

/-- Constructor `DashboardData.__init__`. -/
def DashboardData.init : DashboardData :=
  { anomaly_history := [], traffic_stats := [], ip_stats := [],
    protocol_stats := [], hourly_stats := [] }

/-- Embedding of `DashboardData.add_anomaly`: stamps the record in place, appends it to
`anomaly_history` (maxlen 1000), bumps `ip_stats[src_ip or "Unknown"]`
(count += 1, last_seen = now), `protocol_stats[protocol or "Unknown"]` and
`hourly_stats[hour]`. -/
def DashboardData.add_anomaly (now : Nat) (d : DashboardData) (r : AnomalyRecord) :
    DashboardData :=
  let stamped := stampRecord now r
  { anomaly_history := dequeAppend 1000 d.anomaly_history stamped
    traffic_stats := d.traffic_stats
    ip_stats := assocBump (r.src_ip.getD "Unknown") ⟨0, none⟩
        (fun st => ⟨st.count + 1, some now⟩) d.ip_stats
    protocol_stats := assocBump (r.protocol.getD "Unknown") 0 (· + 1) d.protocol_stats
    hourly_stats := assocBump (hourBucket now) 0 (· + 1) d.hourly_stats }

/-- Embedding of `DashboardData.add_traffic_data`: appends the sample to `traffic_stats`
(maxlen 100) with `normal_count = total_requests - anomaly_count`; the source
performs no validation of any kind. -/
def DashboardData.add_traffic_data (now : Nat) (d : DashboardData)
    (total_requests anomaly_count : Int) : DashboardData :=
  let sample : TrafficSample :=
    ⟨now, total_requests, anomaly_count, total_requests - anomaly_count⟩
  { d with traffic_stats := dequeAppend 100 d.traffic_stats sample }

/-- Timestamp of a stored history entry (`a['timestamp']`); every record put
into the history by `add_anomaly` carries `some`, so the default is inert. -/
def tsVal (a : AnomalyRecord) : Nat := a.timestamp.getD 0

/-- The `recent_anomalies` filter of `get_dashboard_stats`: entries whose
timestamp is strictly greater than `now - 1 hour`. -/
def recentAnomalies (d : DashboardData) (now : Nat) : List AnomalyRecord :=
  d.anomaly_history.filter fun a => decide (now - 60 < tsVal a)

/-- The `top_ips` computation of `get_dashboard_stats`:
`sorted([(ip, data['count']) ...], key=lambda x: x[1], reverse=True)[:10]`. -/
def topAttackingIps (d : DashboardData) : List (String × Nat) :=
  (sortByKeyDesc Prod.snd (d.ip_stats.map fun p => (p.1, p.2.count))).take 10

/-- The derived `DashboardSnapshot` returned by `get_dashboard_stats`. -/
structure DashboardSnapshot where
  total_anomalies : Nat
  recent_anomalies_count : Nat
  top_attacking_ips : List (String × Nat)
  protocol_distribution : List (String × Nat)
  traffic_trend : List TrafficSample
  recent_anomalies : List AnomalyRecord
  hourly_distribution : List (String × Nat)
deriving DecidableEq, Repr

/-- Embedding of `DashboardData.get_dashboard_stats`. -/
def DashboardData.get_dashboard_stats (d : DashboardData) (now : Nat) :
    DashboardSnapshot :=
  { total_anomalies := d.anomaly_history.length
    recent_anomalies_count := (recentAnomalies d now).length
    top_attacking_ips := topAttackingIps d
    protocol_distribution := d.protocol_stats
    traffic_trend := pySliceFrom d.traffic_stats (-24)
    recent_anomalies := pySliceFrom d.anomaly_history (-20)
    hourly_distribution := d.hourly_stats }

/-- The `/api/anomalies` endpoint `get_recent_anomalies(limit)`:
`list(anomaly_history)[-limit:]` together with the total length. -/
def get_recent_anomalies (d : DashboardData) (limit : Int) :
    List AnomalyRecord × Nat :=
  (pySliceFrom d.anomaly_history (-limit), d.anomaly_history.length)

/-- An observer handle (a websocket connection); `fails` says whether a send
to it raises. -/
structure Observer where
  id : Nat
  fails : Bool
deriving DecidableEq, Repr

/-- Embedding of `ConnectionManager.disconnect`: Python `list.remove`, which removes the
first occurrence or raises `ValueError` when the element is absent. -/
def ConnectionManager.disconnect (active : List Observer) (w : Observer) :
    Except String (List Observer) :=
  if w ∈ active then .ok (active.erase w) else .error "ValueError"

/-- The loop body of `ConnectionManager.broadcast`: iterate over a
point-in-time copy of the connection list; a failing send removes that
observer from the live list, every other observer receives the message.
Returns (observers that received the message, final live list). -/
def broadcastLoop : List Observer → List Observer × List Observer →
    List Observer × List Observer
  | [], st => st
  | c :: rest, (delivered, active) =>
      if c.fails then broadcastLoop rest (delivered, active.erase c)
      else broadcastLoop rest (delivered ++ [c], active)

/-- Embedding of `ConnectionManager.broadcast` (the `if self.active_connections:` guard
makes the empty case a no-op). -/
def ConnectionManager.broadcast (active : List Observer) :
    List Observer × List Observer :=
  if active.isEmpty then ([], active) else broadcastLoop active ([], active)

/-- Embedding of `a.get('result') == -1`: the poller's anomaly classification of a
candidate; a missing `result` compares unequal to `-1`. -/
def countsAsAnomaly (r : AnomalyRecord) : Bool :=
  r.result == some (-1)

/-- One iteration of the poller's ingestion loop: the dedup membership test
`anomaly not in [dict(a) for a in anomaly_history]` against the current
history, then `add_anomaly` and the `new_anomaly` broadcast.  The broadcast
payload is the very dict `add_anomaly` just mutated, hence the stamped
record. -/
def ingestOne (now : Nat) : DashboardData × List AnomalyRecord → AnomalyRecord →
    DashboardData × List AnomalyRecord
  | (st, msgs), r =>
      if r ∈ st.anomaly_history then (st, msgs)
      else (st.add_anomaly now r, msgs ++ [stampRecord now r])

/-- One successful cycle of `poll_detection_api`: ingest every candidate with
the dedup check, then record a traffic sample with
`total_requests = len(candidates) + 100` and
`anomaly_count = len([a for a in candidates if a.get('result') == -1])`.
Returns the new state and the `new_anomaly` payloads broadcast. -/
def pollCycle (now : Nat) (st : DashboardData) (cands : List AnomalyRecord) :
    DashboardData × List AnomalyRecord :=
  let (st1, msgs) := cands.foldl (ingestOne now) (st, [])
  (st1.add_traffic_data now ((cands.length : Int) + 100)
      ((cands.filter countsAsAnomaly).length : Int), msgs)

/-- Modelled from the spec's words (§4.1, refinement target for the claimed
tie-break): adjacent pairs of a ranking are ordered by `count` descending and,
on equal counts, by most-recent `last_seen` first. -/
def specTieBreakOkB (d : DashboardData) : List (String × Nat) → Bool
  | [] => true
  | [_] => true
  | a :: b :: rest =>
      (decide (b.2 < a.2) ||
        (a.2 == b.2 &&
          decide ((ipLastSeen d.ip_stats b.1).getD 0 ≤ (ipLastSeen d.ip_stats a.1).getD 0))) &&
      specTieBreakOkB d (b :: rest)

/-- A concrete candidate record as the detection API returns it
(`{"src_ip":"1.2.3.4","dst_ip":"5.6.7.8","protocol":"TCP","score":0.9,"result":-1}`,
score scaled to an integer); no ingestion timestamp yet. -/
def recT : AnomalyRecord :=
  ⟨some "1.2.3.4", some "5.6.7.8", some "TCP", some 9, some (-1), none⟩

/-- Candidate record from source IP "A". -/
def recA : AnomalyRecord := ⟨some "A", none, none, none, none, none⟩

/-- Candidate record from source IP "B". -/
def recB : AnomalyRecord := ⟨some "B", none, none, none, none, none⟩

/-- Candidate record from source IP "C". -/
def recC : AnomalyRecord := ⟨some "C", none, none, none, none, none⟩

/-- Candidate record from source IP "X". -/
def recX : AnomalyRecord := ⟨some "X", none, none, none, none, none⟩

/-- Candidate record from source IP "Y". -/
def recY : AnomalyRecord := ⟨some "Y", none, none, none, none, none⟩

/-- State with two tied IPs: one event from "X" at time 1, then one event
from "Y" at time 2 (so "Y" has the more recent `last_seen`). -/
def tieState : DashboardData :=
  (DashboardData.init.add_anomaly 1 recX).add_anomaly 2 recY

/-- State realizing counts `{A:5, B:9, C:1}` via 15 ingested events. -/
def abcState : DashboardData :=
  ((List.replicate 5 recA ++ List.replicate 9 recB ++ [recC]).foldl
    (DashboardData.add_anomaly 3) DashboardData.init)

/-! ### Helper lemmas about the embedded primitives -/

theorem tsVal_stampRecord (now : Nat) (r : AnomalyRecord) :
    tsVal (stampRecord now r) = now := rfl

theorem dequeAppend_eq_drop (n : Nat) (l : List α) (x : α) :
    dequeAppend n l x = (l ++ [x]).drop ((l.length + 1) - n) := by
  unfold dequeAppend
  by_cases h : n < (l ++ [x]).length
  · simp only [if_pos h]
    simp [List.length_append] at h ⊢
  · simp only [if_neg h]
    simp [List.length_append] at h
    have : l.length + 1 - n = 0 := by omega
    simp [this]

theorem dequeAppend_length_le (n : Nat) (l : List α) (x : α) :
    (dequeAppend n l x).length ≤ n := by
  rw [dequeAppend_eq_drop]
  simp [List.length_append]
  omega

theorem drop_append_le (k : Nat) (l₁ l₂ : List α) (h : k ≤ l₁.length) :
    (l₁ ++ l₂).drop k = l₁.drop k ++ l₂ := by
  induction l₁ generalizing k with
  | nil =>
      have : k = 0 := by simpa using h
      simp [this]
  | cons a t ih =>
      cases k with
      | zero => simp
      | succ k' =>
          simp only [List.cons_append, List.drop_succ_cons]
          exact ih k' (by simpa using h)

theorem dequeAppend_getLast? (n : Nat) (l : List α) (x : α) (h : 1 ≤ n) :
    (dequeAppend n l x).getLast? = some x := by
  rw [dequeAppend_eq_drop, drop_append_le _ _ _ (by omega)]
  exact List.getLast?_concat _

theorem foldl_dequeAppend_drop (n : Nat) (xs : List α) :
    ∀ l : List α, l.length ≤ n →
      xs.foldl (dequeAppend n) l = (l ++ xs).drop ((l.length + xs.length) - n) := by
  induction xs with
  | nil =>
      intro l hl
      have h0 : l.length - n = 0 := by omega
      simp [h0]
  | cons x xs ih =>
      intro l hl
      simp only [List.foldl_cons]
      rw [ih (dequeAppend n l x) (dequeAppend_length_le n l x)]
      rw [dequeAppend_eq_drop]
      have hk : (l.length + 1) - n ≤ (l ++ [x]).length := by
        simp [List.length_append]
      rw [← drop_append_le ((l.length + 1) - n) (l ++ [x]) xs hk]
      rw [List.drop_drop]
      have hL : (List.drop (l.length + 1 - n) (l ++ [x])).length
          = l.length + 1 - (l.length + 1 - n) := by
        simp
      rw [hL]
      have hlist : l ++ [x] ++ xs = l ++ x :: xs := by simp
      rw [hlist]
      have hidx : l.length + 1 - n + (l.length + 1 - (l.length + 1 - n) + xs.length - n)
          = l.length + (x :: xs).length - n := by
        simp only [List.length_cons]
        omega
      rw [hidx]

theorem assocFind_assocBump_self (k : String) (dflt : β) (upd : β → β) :
    ∀ l : List (String × β),
      assocFind k (assocBump k dflt upd l) = some (upd ((assocFind k l).getD dflt))
  | [] => by simp [assocBump, assocFind]
  | (k', v) :: rest => by
      by_cases h : k' = k
      · simp [assocBump, assocFind, h]
      · simp only [assocBump, assocFind, if_neg h]
        exact assocFind_assocBump_self k dflt upd rest

theorem ipCount_bump (l : List (String × IPStat)) (ip : String) (now : Nat) :
    ipCount (assocBump ip ⟨0, none⟩ (fun st => ⟨st.count + 1, some now⟩) l) ip
      = ipCount l ip + 1 := by
  unfold ipCount
  rw [assocFind_assocBump_self]
  cases assocFind ip l <;> simp

theorem ipLastSeen_bump (l : List (String × IPStat)) (ip : String) (now : Nat) :
    ipLastSeen (assocBump ip ⟨0, none⟩ (fun st => ⟨st.count + 1, some now⟩) l) ip
      = some now := by
  unfold ipLastSeen
  rw [assocFind_assocBump_self]

theorem natCount_bump (l : List (String × Nat)) (k : String) :
    natCount (assocBump k 0 (· + 1) l) k = natCount l k + 1 := by
  unfold natCount
  rw [assocFind_assocBump_self]
  cases assocFind k l <;> simp

theorem mem_insertByKeyDesc (key : α → Nat) (x z : α) :
    ∀ l : List α, z ∈ insertByKeyDesc key x l ↔ z = x ∨ z ∈ l
  | [] => by simp [insertByKeyDesc]
  | y :: ys => by
      by_cases h : key y ≤ key x
      · simp [insertByKeyDesc, if_pos h]
      · simp only [insertByKeyDesc, if_neg h, List.mem_cons,
          mem_insertByKeyDesc key x z ys]
        tauto

theorem perm_insertByKeyDesc (key : α → Nat) (x : α) :
    ∀ l : List α, List.Perm (insertByKeyDesc key x l) (x :: l)
  | [] => by simp [insertByKeyDesc]
  | y :: ys => by
      by_cases h : key y ≤ key x
      · simp [insertByKeyDesc, if_pos h]
      · simp only [insertByKeyDesc, if_neg h]
        exact ((perm_insertByKeyDesc key x ys).cons y).trans (List.Perm.swap x y ys)

theorem perm_sortByKeyDesc (key : α → Nat) :
    ∀ l : List α, List.Perm (sortByKeyDesc key l) l
  | [] => by simp [sortByKeyDesc]
  | x :: xs =>
      (perm_insertByKeyDesc key x (sortByKeyDesc key xs)).trans
        ((perm_sortByKeyDesc key xs).cons x)

theorem pairwise_insertByKeyDesc (key : α → Nat) (x : α) :
    ∀ l : List α, l.Pairwise (fun a b => key b ≤ key a) →
      (insertByKeyDesc key x l).Pairwise (fun a b => key b ≤ key a)
  | [], _ => by simp [insertByKeyDesc]
  | y :: ys, hp => by
      rcases List.pairwise_cons.mp hp with ⟨hy, hys⟩
      by_cases h : key y ≤ key x
      · simp only [insertByKeyDesc, if_pos h]
        refine List.pairwise_cons.mpr ⟨?_, hp⟩
        intro z hz
        rcases List.mem_cons.mp hz with rfl | hz'
        · exact h
        · exact le_trans (hy z hz') h
      · simp only [insertByKeyDesc, if_neg h]
        refine List.pairwise_cons.mpr ⟨?_, pairwise_insertByKeyDesc key x ys hys⟩
        intro z hz
        rcases (mem_insertByKeyDesc key x z ys).mp hz with rfl | hz'
        · omega
        · exact hy z hz'

theorem pairwise_sortByKeyDesc (key : α → Nat) :
    ∀ l : List α, (sortByKeyDesc key l).Pairwise (fun a b => key b ≤ key a)
  | [] => by simp [sortByKeyDesc]
  | x :: xs =>
      pairwise_insertByKeyDesc key x (sortByKeyDesc key xs)
        (pairwise_sortByKeyDesc key xs)

theorem broadcastLoop_spec :
    ∀ (rest del D : List Observer), rest.Nodup → (∀ c ∈ rest, c ∉ D) →
      broadcastLoop rest (del, D ++ rest)
        = (del ++ rest.filter (fun c => !c.fails),
           D ++ rest.filter (fun c => !c.fails))
  | [], del, D, _, _ => by simp [broadcastLoop]
  | c :: rest, del, D, hnd, hD => by
      have hcD : c ∉ D := hD c (List.mem_cons_self c rest)
      have hrest_nd : rest.Nodup := (List.nodup_cons.mp hnd).2
      have hc_rest : c ∉ rest := (List.nodup_cons.mp hnd).1
      by_cases hf : c.fails
      · have herase : (D ++ c :: rest).erase c = D ++ rest := by
          rw [List.erase_append_right _ hcD, List.erase_cons_head]
        simp only [broadcastLoop, if_pos hf, herase]
        rw [broadcastLoop_spec rest del D hrest_nd
          (fun x hx => hD x (List.mem_cons_of_mem c hx))]
        simp [List.filter_cons, hf]
      · have hstep : D ++ c :: rest = (D ++ [c]) ++ rest := by simp
        simp only [broadcastLoop, if_neg hf, hstep]
        rw [broadcastLoop_spec rest (del ++ [c]) (D ++ [c]) hrest_nd ?hnot]
        case hnot =>
          intro x hx
          simp only [List.mem_append, List.mem_singleton]
          rintro (hx' | rfl)
          · exact hD x (List.mem_cons_of_mem c hx) hx'
          · exact hc_rest hx
        simp [List.filter_cons, hf]

theorem foldl_add_anomaly_history (now : Nat) :
    ∀ (rs : List AnomalyRecord) (d : DashboardData),
      (rs.foldl (DashboardData.add_anomaly now) d).anomaly_history
        = (rs.map (stampRecord now)).foldl (dequeAppend 1000) d.anomaly_history
  | [], _ => rfl
  | r :: rs, d => by
      simp only [List.foldl_cons, List.map_cons]
      rw [foldl_add_anomaly_history now rs (d.add_anomaly now r)]
      rfl

theorem broadcast_spec (obs : List Observer) (h : obs.Nodup) :
    ConnectionManager.broadcast obs
      = (obs.filter (fun c => !c.fails), obs.filter (fun c => !c.fails)) := by
  cases obs with
  | nil => simp [ConnectionManager.broadcast]
  | cons c rest =>
      have hne : ((c :: rest : List Observer)).isEmpty = false := rfl
      simp only [ConnectionManager.broadcast, hne, Bool.false_eq_true, if_false]
      have hspec := broadcastLoop_spec (c :: rest) [] [] h (by simp)
      simpa using hspec

theorem mem_dequeAppend (n : Nat) (l : List α) (x y : α)
    (h : y ∈ dequeAppend n l x) : y ∈ l ∨ y = x := by
  rw [dequeAppend_eq_drop] at h
  have := List.mem_of_mem_drop h
  rcases List.mem_append.mp this with h' | h'
  · exact Or.inl h'
  · exact Or.inr (List.mem_singleton.mp h')

/-! ### Claim theorems -/

/-- Claim C1 (code_bug evaluation): dedup idempotence fails in the source.
Feeding the identical source record `recT` in two consecutive poll cycles
(and likewise twice within one cycle) stores TWO `AnomalyEvent`s in
`anomaly_history`, not one: the first ingestion stamps the stored copy with
an ingestion timestamp, so the membership test of `poll_detection_api` never
matches the timestamp-free candidate again. -/
theorem spec_C1_dedup_fails_eval :
    ((pollCycle 20 (pollCycle 10 DashboardData.init [recT]).1 [recT]).1.anomaly_history.length = 2) ∧
    ((pollCycle 10 DashboardData.init [recT, recT]).1.anomaly_history.length = 2) ∧
    (pollCycle 10 DashboardData.init [recT]).1.anomaly_history = [stampRecord 10 recT] ∧
    stampRecord 10 recT ≠ recT := by
  refine ⟨by decide, by decide, by decide, by decide⟩

/-- Claim C2 counterexample: `add_traffic_data` does NOT fail when
`anomaly_count > total_requests`; with `total_requests = 1` and
`anomaly_count = 2` it stores a sample whose `normal_count` is `-1 < 0`. -/
theorem spec_C2_counterexample :
    (DashboardData.init.add_traffic_data 0 1 2).traffic_stats
      = [⟨0, 1, 2, -1⟩] ∧ ((-1 : Int) < 0) := by
  refine ⟨by decide, by decide⟩

/-- Claim C2 (amended): `add_traffic_data` never fails; it always appends a
`TrafficSample` with `normal_count = total_requests - anomaly_count`, with no
sign guarantee, and every sample of the result is either an old sample or
that appended one. -/
theorem spec_C2_amended (now : Nat) (d : DashboardData) (t a : Int) :
    (d.add_traffic_data now t a).traffic_stats.getLast? = some ⟨now, t, a, t - a⟩ ∧
    ∀ s ∈ (d.add_traffic_data now t a).traffic_stats,
      s ∈ d.traffic_stats ∨ s = ⟨now, t, a, t - a⟩ := by
  unfold DashboardData.add_traffic_data
  exact ⟨dequeAppend_getLast? 100 _ _ (by omega),
    fun s hs => mem_dequeAppend 100 _ _ s hs⟩

/-- Witness for C2 (amended) at `now = 0`, `d = init`, `t = 5`, `a = 2`,
sample `⟨0, 5, 2, 3⟩`. -/
theorem spec_C2_amended_witness :
    (⟨0, 5, 2, 3⟩ : TrafficSample) ∈ (DashboardData.init.add_traffic_data 0 5 2).traffic_stats ∧
    ((⟨0, 5, 2, 3⟩ : TrafficSample) ∈ DashboardData.init.traffic_stats ∨
      (⟨0, 5, 2, 3⟩ : TrafficSample) = ⟨0, 5, 2, (5 : Int) - 2⟩) :=
  ⟨by decide, (spec_C2_amended 0 DashboardData.init 5 2).2 _ (by decide)⟩

/-- Claim C3 counterexample: `disconnect` is not idempotent — called on an
observer absent from the live set, Python's `list.remove` raises
`ValueError` instead of leaving the set unchanged. -/
theorem spec_C3_counterexample :
    ConnectionManager.disconnect [] ⟨0, false⟩ = Except.error "ValueError" := by
  rfl

/-- Claim C3 (amended): `disconnect` removes the first occurrence of an
observer that is in the live set; calling it again on the already-removed
observer raises `ValueError`. -/
theorem spec_C3_amended (l : List Observer) (w : Observer)
    (hw : w ∈ l) (hnd : l.Nodup) :
    ConnectionManager.disconnect l w = Except.ok (l.erase w) ∧
    ConnectionManager.disconnect (l.erase w) w = Except.error "ValueError" := by
  constructor
  · simp [ConnectionManager.disconnect, hw]
  · have hne : w ∉ l.erase w := hnd.not_mem_erase
    simp [ConnectionManager.disconnect, hne]

/-- Witness for C3 (amended) on the live set `[⟨0, false⟩, ⟨1, true⟩]`. -/
theorem spec_C3_amended_witness :
    (⟨0, false⟩ : Observer) ∈ ([⟨0, false⟩, ⟨1, true⟩] : List Observer) ∧
    ([⟨0, false⟩, ⟨1, true⟩] : List Observer).Nodup ∧
    (ConnectionManager.disconnect [⟨0, false⟩, ⟨1, true⟩] ⟨0, false⟩
        = Except.ok (([⟨0, false⟩, ⟨1, true⟩] : List Observer).erase ⟨0, false⟩) ∧
      ConnectionManager.disconnect
          (([⟨0, false⟩, ⟨1, true⟩] : List Observer).erase ⟨0, false⟩) ⟨0, false⟩
        = Except.error "ValueError") :=
  ⟨by decide, by decide, spec_C3_amended _ _ (by decide) (by decide)⟩

/-- Claim C4 counterexample: in `tieState` the IPs "X" and "Y" are tied at
count 1 with `last_seen` 1 and 2 respectively, yet `top_attacking_ips` ranks
"X" (the older `last_seen`) first — CPython's stable sort keeps insertion
order on ties, so ties are NOT broken by most-recent `last_seen` first. -/
theorem spec_C4_counterexample :
    topAttackingIps tieState = [("X", 1), ("Y", 1)] ∧
    ipLastSeen tieState.ip_stats "X" = some 1 ∧
    ipLastSeen tieState.ip_stats "Y" = some 2 ∧
    specTieBreakOkB tieState (topAttackingIps tieState) = false := by
  refine ⟨by decide, by decide, by decide, by decide⟩

/-- Claim C4 (amended): `top_attacking_ips` is the 10 IPs of highest count in
`ip_stats`, sorted by count descending with ties kept in `ip_stats` insertion
order (stable sort), each listed with its `ip_stats` count; on counts
`{A:5, B:9, C:1}` it returns `[B, A, C]`. -/
theorem spec_C4_amended :
    (∀ d : DashboardData, (topAttackingIps d).length ≤ 10) ∧
    (∀ d : DashboardData, (topAttackingIps d).Pairwise (fun p q => q.2 ≤ p.2)) ∧
    (∀ (d : DashboardData) (p : String × Nat), p ∈ topAttackingIps d →
      ∃ st : IPStat, (p.1, st) ∈ d.ip_stats ∧ st.count = p.2) ∧
    topAttackingIps abcState = [("B", 9), ("A", 5), ("C", 1)] := by
  refine ⟨?_, ?_, ?_, by decide⟩
  · intro d
    exact List.length_take_le 10 _
  · intro d
    exact List.Pairwise.sublist (List.take_sublist 10 _)
      (pairwise_sortByKeyDesc Prod.snd _)
  · intro d p hp
    have hp' : p ∈ sortByKeyDesc Prod.snd
        (d.ip_stats.map fun q => (q.1, q.2.count)) :=
      List.mem_of_mem_take hp
    have hp'' : p ∈ d.ip_stats.map (fun q => (q.1, q.2.count)) :=
      (perm_sortByKeyDesc Prod.snd _).mem_iff.mp hp'
    rcases List.mem_map.mp hp'' with ⟨q, hq, hpe⟩
    subst hpe
    exact ⟨q.2, by simpa using hq, rfl⟩

/-- Witness for C4 (amended): the top entry `("B", 9)` of `abcState` indeed
comes from `ip_stats` with count 9. -/
theorem spec_C4_amended_witness :
    ("B", 9) ∈ topAttackingIps abcState ∧
    (∃ st : IPStat, (("B", 9).1, st) ∈ abcState.ip_stats ∧ st.count = ("B", 9).2) :=
  ⟨by decide, spec_C4_amended.2.2.1 abcState ("B", 9) (by decide)⟩

/-- Claim C5: `anomaly_history` never exceeds 1000 entries and
`traffic_stats` never exceeds 100; a full history evicts exactly the single
oldest entry on insertion; and folding 1500 insertions through `add_anomaly`
leaves exactly the last 1000 inserted (stamped) records, in insertion
order. -/
theorem spec_C5_bounded_fifo :
    (∀ (now : Nat) (d : DashboardData) (r : AnomalyRecord),
      (d.add_anomaly now r).anomaly_history.length ≤ 1000) ∧
    (∀ (now : Nat) (d : DashboardData) (t a : Int),
      (d.add_traffic_data now t a).traffic_stats.length ≤ 100) ∧
    (∀ (l : List AnomalyRecord) (x : AnomalyRecord), l.length = 1000 →
      dequeAppend 1000 l x = l.drop 1 ++ [x]) ∧
    (∀ (rs : List AnomalyRecord) (now : Nat), rs.length = 1500 →
      (rs.foldl (DashboardData.add_anomaly now) DashboardData.init).anomaly_history
        = (rs.map (stampRecord now)).drop 500) := by
  refine ⟨?_, ?_, ?_, ?_⟩
  · intro now d r
    exact dequeAppend_length_le 1000 _ _
  · intro now d t a
    exact dequeAppend_length_le 100 _ _
  · intro l x hl
    rw [dequeAppend_eq_drop, hl]
    have h1 : (1000 + 1 : Nat) - 1000 = 1 := by norm_num
    rw [h1]
    exact drop_append_le 1 l [x] (by omega)
  · intro rs now hrs
    rw [foldl_add_anomaly_history]
    rw [foldl_dequeAppend_drop 1000 (rs.map (stampRecord now))
      DashboardData.init.anomaly_history (by simp [DashboardData.init])]
    simp [DashboardData.init, hrs]

/-- Witness for C5 at a full history of 1000 copies of `recT` and at a run
of 1500 insertions. -/
theorem spec_C5_bounded_fifo_witness :
    ((List.replicate 1000 recT).length = 1000 ∧
      dequeAppend 1000 (List.replicate 1000 recT) recA
        = (List.replicate 1000 recT).drop 1 ++ [recA]) ∧
    ((List.replicate 1500 recT).length = 1500 ∧
      ((List.replicate 1500 recT).foldl (DashboardData.add_anomaly 0)
          DashboardData.init).anomaly_history
        = ((List.replicate 1500 recT).map (stampRecord 0)).drop 500) :=
  ⟨⟨List.length_replicate 1000 recT,
    spec_C5_bounded_fifo.2.2.1 _ recA (List.length_replicate 1000 recT)⟩,
   ⟨List.length_replicate 1500 recT,
    spec_C5_bounded_fifo.2.2.2 _ 0 (List.length_replicate 1500 recT)⟩⟩

/-- Claim C6: `recent_anomalies_count` counts exactly the history entries
with ingestion timestamp strictly greater than `now - 60`; an entry stamped
61 minutes ago is excluded, one stamped 59 minutes ago is included, and one
stamped exactly 60 minutes ago is excluded (strict inequality). -/
theorem spec_C6_recency (now : Nat) (e e' e'' : AnomalyRecord) (h : 61 ≤ now) :
    (∀ d : DashboardData, (d.get_dashboard_stats now).recent_anomalies_count
        = d.anomaly_history.countP (fun a => decide (now - 60 < tsVal a))) ∧
    (DashboardData.get_dashboard_stats
        ⟨[stampRecord (now - 61) e, stampRecord (now - 59) e'], [], [], [], []⟩
        now).recent_anomalies_count = 1 ∧
    (DashboardData.get_dashboard_stats
        ⟨[stampRecord (now - 60) e''], [], [], [], []⟩
        now).recent_anomalies_count = 0 := by
  have h61 : decide (now - 60 < tsVal (stampRecord (now - 61) e)) = false := by
    rw [tsVal_stampRecord]
    simp only [decide_eq_false_iff_not]
    omega
  have h59 : decide (now - 60 < tsVal (stampRecord (now - 59) e')) = true := by
    rw [tsVal_stampRecord]
    simp only [decide_eq_true_eq]
    omega
  have h60 : decide (now - 60 < tsVal (stampRecord (now - 60) e'')) = false := by
    rw [tsVal_stampRecord]
    simp only [decide_eq_false_iff_not]
    omega
  refine ⟨?_, ?_, ?_⟩
  · intro d
    simp [DashboardData.get_dashboard_stats, recentAnomalies,
      List.countP_eq_length_filter]
  · simp [DashboardData.get_dashboard_stats, recentAnomalies,
      List.filter_cons, h61, h59]
  · simp [DashboardData.get_dashboard_stats, recentAnomalies,
      List.filter_cons, h60]

/-- Witness for C6 at `now = 120` with events stamped 59, 61 and 60. -/
theorem spec_C6_recency_witness :
    (61 : Nat) ≤ 120 ∧
    ((∀ d : DashboardData, (d.get_dashboard_stats 120).recent_anomalies_count
        = d.anomaly_history.countP (fun a => decide (120 - 60 < tsVal a))) ∧
     (DashboardData.get_dashboard_stats
        ⟨[stampRecord (120 - 61) recT, stampRecord (120 - 59) recT], [], [], [], []⟩
        120).recent_anomalies_count = 1 ∧
     (DashboardData.get_dashboard_stats
        ⟨[stampRecord (120 - 60) recT], [], [], [], []⟩
        120).recent_anomalies_count = 0) :=
  ⟨by decide, spec_C6_recency 120 recT recT recT (by decide)⟩

/-- Claim C7: broadcast delivers the message to every non-failing observer of
a duplicate-free live set, removes exactly the failing ones from the live
set, and a subsequent broadcast reaches exactly the remaining observers. -/
theorem spec_C7_partial_failure (obs : List Observer) (h : obs.Nodup) :
    ConnectionManager.broadcast obs
      = (obs.filter (fun c => !c.fails), obs.filter (fun c => !c.fails)) ∧
    ConnectionManager.broadcast ((ConnectionManager.broadcast obs).2)
      = ((ConnectionManager.broadcast obs).2,
         (ConnectionManager.broadcast obs).2) := by
  have h1 := broadcast_spec obs h
  refine ⟨h1, ?_⟩
  have h2 : (ConnectionManager.broadcast obs).2 = obs.filter (fun c => !c.fails) := by
    rw [h1]
  rw [h2]
  have hnd2 : (obs.filter (fun c => !c.fails)).Nodup := List.Nodup.filter _ h
  rw [broadcast_spec _ hnd2]
  have h4 : (obs.filter (fun c => !c.fails)).filter (fun c => !c.fails)
      = obs.filter (fun c => !c.fails) := by
    rw [List.filter_eq_self]
    intro a ha
    exact (List.mem_filter.mp ha).2
  rw [h4]

/-- Witness for C7: three observers, the second fails; the first and third
receive the message and remain, a second broadcast reaches both again. -/
theorem spec_C7_partial_failure_witness :
    ([⟨1, false⟩, ⟨2, true⟩, ⟨3, false⟩] : List Observer).Nodup ∧
    (ConnectionManager.broadcast [⟨1, false⟩, ⟨2, true⟩, ⟨3, false⟩]
        = (([⟨1, false⟩, ⟨2, true⟩, ⟨3, false⟩] : List Observer).filter (fun c => !c.fails),
           ([⟨1, false⟩, ⟨2, true⟩, ⟨3, false⟩] : List Observer).filter (fun c => !c.fails)) ∧
      ConnectionManager.broadcast
          ((ConnectionManager.broadcast [⟨1, false⟩, ⟨2, true⟩, ⟨3, false⟩]).2)
        = ((ConnectionManager.broadcast [⟨1, false⟩, ⟨2, true⟩, ⟨3, false⟩]).2,
           (ConnectionManager.broadcast [⟨1, false⟩, ⟨2, true⟩, ⟨3, false⟩]).2)) :=
  ⟨by decide, spec_C7_partial_failure _ (by decide)⟩

/-- Claim C8: `add_anomaly` has no error path — for every record, including
one with missing `src_ip`, `protocol` or numeric fields, the stamped record
is appended, the `ip_stats` entry under `src_ip or "Unknown"` gets its count
incremented and its `last_seen` set, the `protocol_stats` entry under
`protocol or "Unknown"` is incremented, and a record with a missing numeric
`result` is treated as the neutral non-anomalous value by the poller's
classifier. -/
theorem spec_C8_no_error_path (now : Nat) (d : DashboardData) (r : AnomalyRecord) :
    (d.add_anomaly now r).anomaly_history.getLast? = some (stampRecord now r) ∧
    ipCount (d.add_anomaly now r).ip_stats (r.src_ip.getD "Unknown")
      = ipCount d.ip_stats (r.src_ip.getD "Unknown") + 1 ∧
    ipLastSeen (d.add_anomaly now r).ip_stats (r.src_ip.getD "Unknown") = some now ∧
    natCount (d.add_anomaly now r).protocol_stats (r.protocol.getD "Unknown")
      = natCount d.protocol_stats (r.protocol.getD "Unknown") + 1 ∧
    countsAsAnomaly { r with result := none } = false := by
  refine ⟨?_, ?_, ?_, ?_, ?_⟩
  · exact dequeAppend_getLast? 1000 _ _ (by omega)
  · exact ipCount_bump _ _ _
  · exact ipLastSeen_bump _ _ _
  · exact natCount_bump _ _
  · rfl

/-- Claim C9: `get_recent_anomalies` with `limit = 0` returns the whole
history (Python's `[-0:]` is `[0:]`), and with `limit ≥ 1` the most recent
`limit` entries in insertion order, always with the full history length as
the total. -/
theorem spec_C9_limit_slice :
    (∀ d : DashboardData, get_recent_anomalies d 0
        = (d.anomaly_history, d.anomaly_history.length)) ∧
    (∀ (d : DashboardData) (limit : Int), 1 ≤ limit →
      get_recent_anomalies d limit
        = (d.anomaly_history.drop (d.anomaly_history.length - limit.toNat),
           d.anomaly_history.length)) := by
  constructor
  · intro d
    unfold get_recent_anomalies pySliceFrom
    norm_num
  · intro d limit hl
    unfold get_recent_anomalies pySliceFrom
    rw [if_pos (by omega)]
    simp

/-- Witness for C9 on a three-entry history with `limit = 2`. -/
theorem spec_C9_limit_slice_witness :
    (1 : Int) ≤ 2 ∧
    get_recent_anomalies ⟨[recA, recB, recC], [], [], [], []⟩ 2
      = ((⟨[recA, recB, recC], [], [], [], []⟩ : DashboardData).anomaly_history.drop
          ((⟨[recA, recB, recC], [], [], [], []⟩ : DashboardData).anomaly_history.length
            - (2 : Int).toNat),
         (⟨[recA, recB, recC], [], [], [], []⟩ : DashboardData).anomaly_history.length) :=
  ⟨by decide, spec_C9_limit_slice.2 _ 2 (by decide)⟩

/-- Claim C10: ingesting a fresh candidate (no `timestamp` field, not yet in
history) stamps the caller's record in place; the `new_anomaly` broadcast
payload IS that stamped record, it equals the newest stored history entry,
it carries the ingestion timestamp, and it differs from the inbound
record. -/
theorem spec_C10_stamp_shared (now : Nat) (st : DashboardData) (r : AnomalyRecord)
    (hts : r.timestamp = none) (hnew : r ∉ st.anomaly_history) :
    (pollCycle now st [r]).2 = [stampRecord now r] ∧
    (pollCycle now st [r]).1.anomaly_history.getLast? = some (stampRecord now r) ∧
    (stampRecord now r).timestamp = some now ∧
    stampRecord now r ≠ r := by
  have hstep : ([r].foldl (ingestOne now) (st, ([] : List AnomalyRecord)))
      = (st.add_anomaly now r, [stampRecord now r]) := by
    simp [ingestOne, hnew]
  refine ⟨?_, ?_, rfl, ?_⟩
  · simp [pollCycle, hstep]
  · have hhist : (pollCycle now st [r]).1.anomaly_history
        = (st.add_anomaly now r).anomaly_history := by
      simp [pollCycle, hstep, DashboardData.add_traffic_data]
    rw [hhist]
    exact dequeAppend_getLast? 1000 _ _ (by omega)
  · intro he
    have hts' := congrArg AnomalyRecord.timestamp he
    rw [hts] at hts'
    simp [stampRecord] at hts'

/-- Witness for C10: the candidate `recT` ingested into the fresh dashboard
at time 5. -/
theorem spec_C10_stamp_shared_witness :
    recT.timestamp = none ∧ recT ∉ DashboardData.init.anomaly_history ∧
    ((pollCycle 5 DashboardData.init [recT]).2 = [stampRecord 5 recT] ∧
     (pollCycle 5 DashboardData.init [recT]).1.anomaly_history.getLast?
        = some (stampRecord 5 recT) ∧
     (stampRecord 5 recT).timestamp = some 5 ∧
     stampRecord 5 recT ≠ recT) :=
  ⟨rfl, by decide, spec_C10_stamp_shared 5 DashboardData.init recT rfl (by decide)⟩
